import Mathlib

/-!
Shallow embedding of the HNS local-networking backend and the driver core of
the contrail-windows-docker-driver repository.

The Go package `adapters/secondary/local_networking/hns` performs its effects
through three primitives: `hcsshim` HNS requests, the adapter readiness wait
`win_networking.WaitForValidIPReacquisition`, and `time.Sleep`.  We embed each
hns function as a pure Lean function from an *environment* (the oracle answers
those primitives would return) to a result paired with the list of primitive
calls the Go code would have issued, in order.  Wall-clock time is modelled as
a natural number: each attempt consumes its environment-given duration and
each sleep consumes its delay, mirroring `time.Since`/`time.Sleep`.
-/

/-- An HNS network as used by the hns package: only the fields the package
reads (`Id`, `Name`, `NetworkAdapterName`) are embedded. -/
structure HNSNetwork where
  Id : String
  Name : String
  NetworkAdapterName : String
deriving DecidableEq, Repr

/-- One primitive effect issued by the hns package: an hcsshim HNS request
(POST / GET / list / DELETE), the adapter readiness wait, or a sleep. -/
inductive Call where
  | hnsPost (config : String)
  | hnsGet (id : String)
  | hnsList
  | hnsDelete (id : String)
  | waitIP (adapter : String)
  | sleep (d : Nat)
deriving DecidableEq, Repr

/-- A Go `error` value as produced by the hns package: either the package's
private `recoverableError` wrapper around an inner error, or a plain error.
Errors are identified by their message string. -/
inductive GoErr where
  | recoverable (inner : String)
  | plain (msg : String)
deriving DecidableEq, Repr

/-- Constant `common.CreateHNSNetworkInitialRetryDelay` (in ms). -/
def CreateHNSNetworkInitialRetryDelay : Nat := 5 * 1000

/-- Constant `common.CreateHNSNetworkTimeout` (in ms). -/
def CreateHNSNetworkTimeout : Nat := 90 * 1000

/-- Constant `common.HNSTransparentInterfaceName`. -/
def HNSTransparentInterfaceName : String := "vEthernet (HNSTransparent)"

/-- Model of Go `strings.ToLower`: lower-case every character of the string
(an executable counterpart of `String.toLower`). -/
def strToLower (s : String) : String := String.mk (s.data.map Char.toLower)

/-- The error classification of `tryCreateHNSNetwork` (part_000 lines 79-80):
the error message is lower-cased and the error is recoverable exactly when the
result contains both `strings.Contains` patterns "hns failed" and
"unspecified error". -/
def isRecoverableHNSErr (err : String) : Bool :=
  let errMsg := strToLower err
  decide ("hns failed".data <:+: errMsg.data) &&
    decide ("unspecified error".data <:+: errMsg.data)

/-- Embedding of `GetHNSNetwork`: issues the GET request and propagates the
backend's answer unchanged. -/
def GetHNSNetwork (resp : Except String HNSNetwork) (hnsID : String) :
    Except String HNSNetwork × List Call :=
  (resp, [Call.hnsGet hnsID])

/-- Embedding of `ListHNSNetworks`: issues the list request and propagates the
backend's answer unchanged. -/
def ListHNSNetworks (resp : Except String (List HNSNetwork)) :
    Except String (List HNSNetwork) × List Call :=
  (resp, [Call.hnsList])

/-- Embedding of `GetHNSNetworkByName`: lists all networks and returns the
first one whose `Name` matches, or `none` (Go `nil, nil`) when no network
matches. -/
def GetHNSNetworkByName (resp : Except String (List HNSNetwork)) (name : String) :
    Except String (Option HNSNetwork) × List Call :=
  match resp with
  | .error e => (.error e, [Call.hnsList])
  | .ok nets => (.ok (nets.find? fun n => n.Name == name), [Call.hnsList])

/-- The `adapterStillInUse` loop of `DeleteHNSNetwork` (part_000 lines
154-161): some listed network with a different `Id` uses the same adapter. -/
def adapterStillInUseIn (networks : List HNSNetwork) (toDelete : HNSNetwork) : Bool :=
  networks.any fun network =>
    network.Id != toDelete.Id && network.NetworkAdapterName == toDelete.NetworkAdapterName

/-- Oracle answers for one run of `DeleteHNSNetwork`: the GET response, the
list response, the DELETE request outcome (`some` = error message) and the
adapter readiness wait outcome (`some` = error message). -/
structure DeleteEnv where
  getResp : Except String HNSNetwork
  listResp : Except String (List HNSNetwork)
  delReq : Option String
  wait : Option String
deriving Repr

/-- Embedding of `DeleteHNSNetwork` (part_000 lines 139-182): get the network,
list all networks, compute `adapterStillInUse`, issue the DELETE request, and
only when no other network still uses the adapter, wait for the adapter to
reacquire its IP.  Result `none` is Go `nil` (success). -/
def DeleteHNSNetwork (env : DeleteEnv) (hnsID : String) : Option String × List Call :=
  let get := GetHNSNetwork env.getResp hnsID
  match get.1 with
  | .error e => (some e, get.2)
  | .ok toDelete =>
    let list := ListHNSNetworks env.listResp
    match list.1 with
    | .error e => (some e, get.2 ++ list.2)
    | .ok networks =>
      let adapterStillInUse := adapterStillInUseIn networks toDelete
      let preTrace := get.2 ++ list.2 ++ [Call.hnsDelete hnsID]
      match env.delReq with
      | some e => (some e, preTrace)
      | none =>
        if adapterStillInUse then (none, preTrace)
        else
          match env.wait with
          | some e => (some e, preTrace ++ [Call.waitIP toDelete.NetworkAdapterName])
          | none => (none, preTrace ++ [Call.waitIP toDelete.NetworkAdapterName])

/-- Oracle answers for one attempt of `tryCreateHNSNetwork`: the POST
response (error message or created network id), the readiness wait outcome,
the oracle for the compensating delete, and the wall-clock duration the
attempt consumes. -/
structure TryEnv where
  post : Except String String
  wait : Option String
  del : DeleteEnv
  dur : Nat
deriving Repr

/-- Embedding of `tryCreateHNSNetwork` (part_000 lines 74-103): POST the
config; on failure classify the error as recoverable or fatal by its message;
on success wait for the transparent interface to reacquire its IP and, when
that wait fails, delete the just-created network before returning a
recoverable error (or the delete's own error). -/
def tryCreateHNSNetwork (env : TryEnv) (config : String) :
    Except GoErr String × List Call :=
  match env.post with
  | .error err =>
    if isRecoverableHNSErr err then
      (.error (.recoverable err), [Call.hnsPost config])
    else
      (.error (.plain err), [Call.hnsPost config])
  | .ok respId =>
    match env.wait with
    | some werr =>
      let del := DeleteHNSNetwork env.del respId
      match del.1 with
      | some deleteErr =>
        (.error (.plain deleteErr),
          Call.hnsPost config :: Call.waitIP HNSTransparentInterfaceName :: del.2)
      | none =>
        (.error (.recoverable werr),
          Call.hnsPost config :: Call.waitIP HNSTransparentInterfaceName :: del.2)
    | none => (.ok respId, [Call.hnsPost config, Call.waitIP HNSTransparentInterfaceName])

/-- Embedding of the retry loop of `CreateHNSNetwork` (part_000 lines
114-132).  `envs i` is the oracle for attempt `i`; `elapsed` is the wall
clock accumulated since `creatingStart`; `delay` is the current retry delay.
An attempt advances the clock by its duration; a recoverable failure within
the timeout budget sleeps for `delay` (advancing the clock) and retries with
the delay doubled; otherwise the loop returns the unwrapped inner error.
Positivity of the delay (`hd`) is exactly what makes the Go loop terminate. -/
def createHNSNetworkLoop (envs : Nat → TryEnv) (config : String) (timeout : Nat)
    (k elapsed delay : Nat) (hd : 0 < delay) : Except GoErr String × List Call :=
  match tryCreateHNSNetwork (envs k) config with
  | (.ok id, trace) => (.ok id, trace)
  | (.error (.recoverable inner), trace) =>
    if h : elapsed + (envs k).dur < timeout then
      match createHNSNetworkLoop envs config timeout (k + 1)
          (elapsed + (envs k).dur + delay) (2 * delay) (Nat.mul_pos (by decide) hd) with
      | (res, rest) => (res, trace ++ Call.sleep delay :: rest)
    else (.error (.plain inner), trace)
  | (.error (.plain msg), trace) => (.error (.plain msg), trace)
termination_by timeout - elapsed
decreasing_by omega

/-- Embedding of `CreateHNSNetwork` (part_000 lines 105-137): run the retry
loop from a zero clock with the configured initial delay and total timeout.
The JSON marshalling of the configuration is abstracted as the `config`
string. -/
def CreateHNSNetwork (envs : Nat → TryEnv) (config : String) :
    Except GoErr String × List Call :=
  createHNSNetworkLoop envs config CreateHNSNetworkTimeout 0 0
    CreateHNSNetworkInitialRetryDelay (by decide)

/-- The sleep durations recorded in a trace, in order. -/
def sleepsOf (trace : List Call) : List Nat :=
  trace.filterMap fun c =>
    match c with
    | Call.sleep d => some d
    | _ => none

/-- The number of creation attempts (POST requests) recorded in a trace. -/
def postsCount (trace : List Call) : Nat :=
  (trace.filter fun c =>
    match c with
    | Call.hnsPost _ => true
    | _ => false).length

/-- Whether a call is the adapter readiness wait. -/
def isWaitCall : Call → Bool
  | Call.waitIP _ => true
  | _ => false

/-!
The Driver Orchestrator (Go package `core/driver_core`) is not among the
source files; only its callers and integration tests are.  The definitions
below are therefore modelled from the specification's description of its
operations (spec section 4.1), over the same oracle-and-trace style of
embedding.
-/

/-- Error taxonomy of the Driver Orchestrator (spec section 7). -/
inductive DriverErr where
  | invalidRequest
  | notFound
  | backendError (msg : String)
deriving DecidableEq, Repr

/-- A call on a backend port made by the Driver Orchestrator. -/
inductive CoreCall where
  | controllerGetNetwork (tenant networkName : String)
  | localCreateNetwork (tenant networkName subnetCIDR gateway : String)
  | localDeleteNetwork (localNetworkID : String)
deriving DecidableEq, Repr

/-- A subnet of an SDN virtual network: a CIDR plus a default gateway. -/
structure SpecSubnet where
  cidr : String
  gateway : String
deriving DecidableEq, Repr

/-- An SDN virtual network as the orchestrator consumes it: its first subnet
is the one used for local provisioning. -/
structure SpecVirtualNetwork where
  firstSubnet : SpecSubnet
deriving DecidableEq, Repr

/-- The orchestrator's `ManagedNetwork` mapping entity:
`runtimeNetworkID → localNetworkID → sourceVirtualNetwork`. -/
structure ManagedNetwork where
  localNetworkID : String
  tenant : String
  networkName : String
deriving DecidableEq, Repr

/-- The mapping store owned by the Driver Orchestrator: managed networks
keyed by runtime network id, managed endpoints keyed by runtime endpoint
id. -/
structure CoreState where
  managedNetworks : List (String × ManagedNetwork)
  managedEndpoints : List (String × String)
deriving DecidableEq, Repr

/-- Oracle answers of the backend ports for one CreateNetwork run: the
Controller lookup by (tenant, name), and the local create performed through
the Resilient Provisioner. -/
structure CreateNetworkEnv where
  lookupNetwork : Option SpecVirtualNetwork
  localCreate : Except String String
deriving Repr

/-- Modelled from the spec: the Driver Orchestrator's `CreateNetwork`
operation (package `core/driver_core`, absent from src/).  Spec section 4.1:
validate that both tenant and network name are present in the request's
option map, rejecting with `InvalidRequest` before touching any backend;
resolve the virtual network via the Controller, failing `NotFound` if absent;
create the local network with the first subnet's CIDR and gateway; persist
the `ManagedNetwork` mapping only after that create succeeds. -/
def CreateNetwork (env : CreateNetworkEnv) (st : CoreState) (runtimeNetworkID : String)
    (options : List (String × String)) :
    Except DriverErr Unit × CoreState × List CoreCall :=
  match options.lookup "tenant", options.lookup "network" with
  | some tenant, some networkName =>
    match env.lookupNetwork with
    | none => (.error .notFound, st, [CoreCall.controllerGetNetwork tenant networkName])
    | some vn =>
      match env.localCreate with
      | .error e =>
        (.error (.backendError e), st,
          [CoreCall.controllerGetNetwork tenant networkName,
            CoreCall.localCreateNetwork tenant networkName
              vn.firstSubnet.cidr vn.firstSubnet.gateway])
      | .ok localID =>
        (.ok (),
          CoreState.mk
            ((runtimeNetworkID, ManagedNetwork.mk localID tenant networkName)
              :: st.managedNetworks)
            st.managedEndpoints,
          [CoreCall.controllerGetNetwork tenant networkName,
            CoreCall.localCreateNetwork tenant networkName
              vn.firstSubnet.cidr vn.firstSubnet.gateway])
  | _, _ => (.error .invalidRequest, st, [])

/-- Outcome of the local-network backend's delete as the orchestrator sees
it: success, a NotFound failure, or any other failure. -/
inductive LocalDeleteOutcome where
  | ok
  | notFound
  | failed (msg : String)
deriving DecidableEq, Repr

/-- Modelled from the spec: the Driver Orchestrator's `DeleteNetwork`
operation (package `core/driver_core`, absent from src/).  Spec section 4.1:
idempotent; look up the `ManagedNetwork`; if absent return success (already
gone); otherwise delete the local network, absorbing `NotFound` from the
backend, then drop the mapping. -/
def DeleteNetwork (localDelete : LocalDeleteOutcome) (st : CoreState)
    (runtimeNetworkID : String) :
    Except DriverErr Unit × CoreState × List CoreCall :=
  match st.managedNetworks.lookup runtimeNetworkID with
  | none => (.ok (), st, [])
  | some m =>
    match localDelete with
    | .failed e =>
      (.error (.backendError e), st, [CoreCall.localDeleteNetwork m.localNetworkID])
    | .ok =>
      (.ok (),
        CoreState.mk (st.managedNetworks.filter fun p => !(p.1 == runtimeNetworkID))
          st.managedEndpoints,
        [CoreCall.localDeleteNetwork m.localNetworkID])
    | .notFound =>
      (.ok (),
        CoreState.mk (st.managedNetworks.filter fun p => !(p.1 == runtimeNetworkID))
          st.managedEndpoints,
        [CoreCall.localDeleteNetwork m.localNetworkID])

/-- Modelled from the spec: the Driver Orchestrator's `Leave` operation
(package `core/driver_core`, absent from src/).  Spec section 4.1: no-op
success; network teardown is driven entirely by DeleteEndpoint. -/
def Leave (st : CoreState) (runtimeEndpointID : String) :
    Except DriverErr Unit × List CoreCall :=
  (.ok (), [])

/-!
Concrete environments used to instantiate the theorems below on closed
inputs.
-/

/-- An attempt whose POST fails with the transient HNS signature. -/
def recoverablePostAttempt : TryEnv :=
  TryEnv.mk (Except.error "hns failed: unspecified error") none
    (DeleteEnv.mk (Except.error "e") (Except.error "e") none none) 0

/-- An attempt whose POST succeeds and whose readiness wait also succeeds. -/
def cleanAttempt : TryEnv :=
  TryEnv.mk (Except.ok "netid1") none
    (DeleteEnv.mk (Except.error "e") (Except.error "e") none none) 0

/-- An attempt whose POST succeeds but whose readiness wait fails, with a
compensating delete that succeeds. -/
def compensationAttempt : TryEnv :=
  TryEnv.mk (Except.ok "netid1") (some "wait failed")
    (DeleteEnv.mk (Except.ok (HNSNetwork.mk "netid1" "n" "eth0")) (Except.ok []) none none) 0

/-- A run in which every attempt fails with the transient POST signature. -/
def allRecoverableRun : Nat → TryEnv := fun _ => recoverablePostAttempt

/-- A run whose first attempt fails with the transient POST signature and
whose second attempt succeeds cleanly. -/
def recoverThenSucceedRun : Nat → TryEnv := fun i =>
  match i with
  | 0 => recoverablePostAttempt
  | _ + 1 => cleanAttempt

/-- A delete environment in which a second network with a different id still
uses the deleted network's adapter. -/
def deleteEnvAdapterShared : DeleteEnv :=
  DeleteEnv.mk (Except.ok (HNSNetwork.mk "id1" "n1" "eth0"))
    (Except.ok [HNSNetwork.mk "id1" "n1" "eth0", HNSNetwork.mk "id2" "n2" "eth0"])
    none none

/-!
Helper lemmas about the traces of the hns functions.
-/

lemma DeleteHNSNetwork_sleepsOf (env : DeleteEnv) (hnsID : String) :
    sleepsOf (DeleteHNSNetwork env hnsID).2 = [] := by
  rcases env with ⟨g, l, d, w⟩
  rcases g with e | toDelete <;> rcases l with e2 | networks <;>
    rcases d with _ | e3 <;> rcases w with _ | e4 <;>
      simp [DeleteHNSNetwork, GetHNSNetwork, ListHNSNetworks, sleepsOf] <;>
        split <;> simp [sleepsOf]

lemma DeleteHNSNetwork_postsCount (env : DeleteEnv) (hnsID : String) :
    postsCount (DeleteHNSNetwork env hnsID).2 = 0 := by
  rcases env with ⟨g, l, d, w⟩
  rcases g with e | toDelete <;> rcases l with e2 | networks <;>
    rcases d with _ | e3 <;> rcases w with _ | e4 <;>
      simp [DeleteHNSNetwork, GetHNSNetwork, ListHNSNetworks, postsCount] <;>
        split <;> simp [postsCount]

lemma tryCreateHNSNetwork_sleepsOf (env : TryEnv) (config : String) :
    sleepsOf (tryCreateHNSNetwork env config).2 = [] := by
  rcases env with ⟨p, w, d, dur⟩
  have hs := DeleteHNSNetwork_sleepsOf d
  rcases p with e | id
  · simp only [tryCreateHNSNetwork]
    split <;> simp [sleepsOf]
  · rcases w with _ | werr
    · simp [tryCreateHNSNetwork, sleepsOf]
    · have hsid := hs id
      rcases hdel : DeleteHNSNetwork d id with ⟨r, tr⟩
      rw [hdel] at hsid
      rcases r with _ | e2 <;>
        simp [tryCreateHNSNetwork, hdel, sleepsOf] <;> simpa [sleepsOf] using hsid

lemma tryCreateHNSNetwork_postsCount (env : TryEnv) (config : String) :
    postsCount (tryCreateHNSNetwork env config).2 = 1 := by
  rcases env with ⟨p, w, d, dur⟩
  have hs := DeleteHNSNetwork_postsCount d
  rcases p with e | id
  · simp only [tryCreateHNSNetwork]
    split <;> simp [postsCount]
  · rcases w with _ | werr
    · simp [tryCreateHNSNetwork, postsCount]
    · have hsid := hs id
      rcases hdel : DeleteHNSNetwork d id with ⟨r, tr⟩
      rw [hdel] at hsid
      rcases r with _ | e2 <;>
        simp [tryCreateHNSNetwork, hdel, postsCount] <;> simpa [postsCount] using hsid

lemma tryCreateHNSNetwork_headCall (env : TryEnv) (config : String) :
    (tryCreateHNSNetwork env config).2.head? = some (Call.hnsPost config) := by
  rcases env with ⟨p, w, d, dur⟩
  rcases p with e | id
  · simp only [tryCreateHNSNetwork]
    split <;> simp
  · rcases w with _ | werr
    · simp [tryCreateHNSNetwork]
    · rcases hdel : DeleteHNSNetwork d id with ⟨r, tr⟩
      rcases r with _ | e2 <;> simp [tryCreateHNSNetwork, hdel]

/-!
Unfolding lemmas for the retry loop, one per branch of its body.
-/

lemma createHNSNetworkLoop_of_ok (envs : Nat → TryEnv) (config : String)
    (timeout k elapsed delay : Nat) (hd : 0 < delay) (id : String) (tr : List Call)
    (h : tryCreateHNSNetwork (envs k) config = (.ok id, tr)) :
    createHNSNetworkLoop envs config timeout k elapsed delay hd = (.ok id, tr) := by
  conv_lhs => rw [createHNSNetworkLoop]
  rw [h]

lemma createHNSNetworkLoop_of_rec_continue (envs : Nat → TryEnv) (config : String)
    (timeout k elapsed delay : Nat) (hd : 0 < delay) (m : String) (tr : List Call)
    (h : tryCreateHNSNetwork (envs k) config = (.error (.recoverable m), tr))
    (hlt : elapsed + (envs k).dur < timeout) :
    createHNSNetworkLoop envs config timeout k elapsed delay hd =
      ((createHNSNetworkLoop envs config timeout (k + 1)
          (elapsed + (envs k).dur + delay) (2 * delay) (Nat.mul_pos (by decide) hd)).1,
        tr ++ Call.sleep delay ::
          (createHNSNetworkLoop envs config timeout (k + 1)
            (elapsed + (envs k).dur + delay) (2 * delay) (Nat.mul_pos (by decide) hd)).2) := by
  conv_lhs => rw [createHNSNetworkLoop]
  rw [h]
  simp only [dif_pos hlt]

lemma createHNSNetworkLoop_of_rec_stop (envs : Nat → TryEnv) (config : String)
    (timeout k elapsed delay : Nat) (hd : 0 < delay) (m : String) (tr : List Call)
    (h : tryCreateHNSNetwork (envs k) config = (.error (.recoverable m), tr))
    (hge : ¬ elapsed + (envs k).dur < timeout) :
    createHNSNetworkLoop envs config timeout k elapsed delay hd =
      (.error (.plain m), tr) := by
  conv_lhs => rw [createHNSNetworkLoop]
  rw [h]
  simp only [dif_neg hge]

lemma createHNSNetworkLoop_of_plain (envs : Nat → TryEnv) (config : String)
    (timeout k elapsed delay : Nat) (hd : 0 < delay) (m : String) (tr : List Call)
    (h : tryCreateHNSNetwork (envs k) config = (.error (.plain m), tr)) :
    createHNSNetworkLoop envs config timeout k elapsed delay hd =
      (.error (.plain m), tr) := by
  conv_lhs => rw [createHNSNetworkLoop]
  rw [h]

lemma sleepsOf_append (a b : List Call) :
    sleepsOf (a ++ b) = sleepsOf a ++ sleepsOf b := by
  simp [sleepsOf]

lemma sleepsOf_cons_sleep (d : Nat) (l : List Call) :
    sleepsOf (Call.sleep d :: l) = d :: sleepsOf l := by
  simp [sleepsOf]

lemma postsCount_append (a b : List Call) :
    postsCount (a ++ b) = postsCount a + postsCount b := by
  simp [postsCount]

lemma postsCount_cons_sleep (d : Nat) (l : List Call) :
    postsCount (Call.sleep d :: l) = postsCount l := by
  simp [postsCount]

lemma createHNSNetworkLoop_not_recoverable (envs : Nat → TryEnv) (config : String)
    (timeout : Nat) : ∀ (k elapsed delay : Nat) (hd : 0 < delay) (s : String),
    (createHNSNetworkLoop envs config timeout k elapsed delay hd).1 ≠
      Except.error (GoErr.recoverable s) := by
  intro k elapsed delay hd s
  induction k, elapsed, delay, hd using createHNSNetworkLoop.induct envs config timeout with
  | case1 k elapsed delay hd id trace hts =>
    rw [createHNSNetworkLoop_of_ok envs config timeout k elapsed delay hd id trace hts]
    simp
  | case2 k elapsed delay hd inner trace hts hlt res rest heq ih =>
    rw [createHNSNetworkLoop_of_rec_continue envs config timeout k elapsed delay hd
      inner trace hts hlt]
    exact ih
  | case3 k elapsed delay hd inner trace hts hge =>
    rw [createHNSNetworkLoop_of_rec_stop envs config timeout k elapsed delay hd
      inner trace hts hge]
    simp
  | case4 k elapsed delay hd msg trace hts =>
    rw [createHNSNetworkLoop_of_plain envs config timeout k elapsed delay hd msg trace hts]
    simp

lemma createHNSNetworkLoop_sleeps_ge (envs : Nat → TryEnv) (config : String)
    (timeout : Nat) : ∀ (k elapsed delay : Nat) (hd : 0 < delay),
    ∀ s ∈ sleepsOf (createHNSNetworkLoop envs config timeout k elapsed delay hd).2,
      delay ≤ s := by
  intro k elapsed delay hd
  induction k, elapsed, delay, hd using createHNSNetworkLoop.induct envs config timeout with
  | case1 k elapsed delay hd id trace hts =>
    have h0 := tryCreateHNSNetwork_sleepsOf (envs k) config
    rw [hts] at h0
    rw [createHNSNetworkLoop_of_ok envs config timeout k elapsed delay hd id trace hts]
    simp [h0]
  | case2 k elapsed delay hd inner trace hts hlt res rest heq ih =>
    have h0 := tryCreateHNSNetwork_sleepsOf (envs k) config
    rw [hts] at h0
    rw [createHNSNetworkLoop_of_rec_continue envs config timeout k elapsed delay hd
      inner trace hts hlt]
    intro s hs
    simp only [sleepsOf_append, sleepsOf_cons_sleep, h0, List.nil_append,
      List.mem_cons] at hs
    rcases hs with rfl | hs
    · exact Nat.le_refl s
    · have := ih s hs
      omega
  | case3 k elapsed delay hd inner trace hts hge =>
    have h0 := tryCreateHNSNetwork_sleepsOf (envs k) config
    rw [hts] at h0
    rw [createHNSNetworkLoop_of_rec_stop envs config timeout k elapsed delay hd
      inner trace hts hge]
    simp [h0]
  | case4 k elapsed delay hd msg trace hts =>
    have h0 := tryCreateHNSNetwork_sleepsOf (envs k) config
    rw [hts] at h0
    rw [createHNSNetworkLoop_of_plain envs config timeout k elapsed delay hd msg trace hts]
    simp [h0]

lemma createHNSNetworkLoop_sleeps_geometric (envs : Nat → TryEnv) (config : String)
    (timeout : Nat)
    (hall : ∀ i, ∃ m tr, tryCreateHNSNetwork (envs i) config =
      (Except.error (GoErr.recoverable m), tr)) :
    ∀ (k elapsed delay : Nat) (hd : 0 < delay), ∃ n,
      sleepsOf (createHNSNetworkLoop envs config timeout k elapsed delay hd).2 =
        (List.range n).map fun i => delay * 2 ^ i := by
  intro k elapsed delay hd
  induction k, elapsed, delay, hd using createHNSNetworkLoop.induct envs config timeout with
  | case1 k elapsed delay hd id trace hts =>
    obtain ⟨m, tr, hmtr⟩ := hall k
    rw [hts] at hmtr
    simp at hmtr
  | case2 k elapsed delay hd inner trace hts hlt res rest heq ih =>
    have h0 := tryCreateHNSNetwork_sleepsOf (envs k) config
    rw [hts] at h0
    obtain ⟨n, hn⟩ := ih
    refine ⟨n + 1, ?_⟩
    rw [createHNSNetworkLoop_of_rec_continue envs config timeout k elapsed delay hd
      inner trace hts hlt]
    simp only [sleepsOf_append, sleepsOf_cons_sleep, h0, List.nil_append]
    rw [hn]
    have hstep : ∀ i : Nat, delay * 2 ^ (i + 1) = 2 * delay * 2 ^ i := by
      intro i
      ring
    simp [List.range_succ_eq_map, List.map_map, Function.comp, hstep]
  | case3 k elapsed delay hd inner trace hts hge =>
    have h0 := tryCreateHNSNetwork_sleepsOf (envs k) config
    rw [hts] at h0
    refine ⟨0, ?_⟩
    rw [createHNSNetworkLoop_of_rec_stop envs config timeout k elapsed delay hd
      inner trace hts hge]
    simp [h0]
  | case4 k elapsed delay hd msg trace hts =>
    obtain ⟨m, tr, hmtr⟩ := hall k
    rw [hts] at hmtr
    simp at hmtr

lemma createHNSNetworkLoop_all_recoverable_error (envs : Nat → TryEnv) (config : String)
    (timeout : Nat)
    (hall : ∀ i, ∃ m tr, tryCreateHNSNetwork (envs i) config =
      (Except.error (GoErr.recoverable m), tr)) :
    ∀ (k elapsed delay : Nat) (hd : 0 < delay), ∃ m,
      (createHNSNetworkLoop envs config timeout k elapsed delay hd).1 =
        Except.error (GoErr.plain m) := by
  intro k elapsed delay hd
  induction k, elapsed, delay, hd using createHNSNetworkLoop.induct envs config timeout with
  | case1 k elapsed delay hd id trace hts =>
    obtain ⟨m, tr, hmtr⟩ := hall k
    rw [hts] at hmtr
    simp at hmtr
  | case2 k elapsed delay hd inner trace hts hlt res rest heq ih =>
    obtain ⟨m, hm⟩ := ih
    refine ⟨m, ?_⟩
    rw [createHNSNetworkLoop_of_rec_continue envs config timeout k elapsed delay hd
      inner trace hts hlt]
    exact hm
  | case3 k elapsed delay hd inner trace hts hge =>
    refine ⟨inner, ?_⟩
    rw [createHNSNetworkLoop_of_rec_stop envs config timeout k elapsed delay hd
      inner trace hts hge]
  | case4 k elapsed delay hd msg trace hts =>
    obtain ⟨m, tr, hmtr⟩ := hall k
    rw [hts] at hmtr
    simp at hmtr

lemma ceilDiv_retry_step (d0 a b : Nat) (hd0 : 0 < d0) (ha : 1 ≤ a)
    (hb : b + d0 ≤ a ∨ b = 0) :
    (b + d0 - 1) / d0 + 1 ≤ (a + d0 - 1) / d0 := by
  rcases hb with hb | rfl
  · have h1 : (b + d0 - 1) / d0 + 1 = (b + d0 - 1 + d0) / d0 :=
      (Nat.add_div_right _ hd0).symm
    rw [h1]
    apply Nat.div_le_div_right
    omega
  · have h2 : (0 + d0 - 1) / d0 = 0 := Nat.div_eq_of_lt (by omega)
    rw [h2]
    have h3 : 1 ≤ (a + d0 - 1) / d0 := by
      rw [Nat.one_le_div_iff hd0]
      omega
    omega

lemma createHNSNetworkLoop_postsCount_le (envs : Nat → TryEnv) (config : String)
    (timeout d0 : Nat) (hd0 : 0 < d0) :
    ∀ (k elapsed delay : Nat) (hd : 0 < delay), d0 ≤ delay →
      postsCount (createHNSNetworkLoop envs config timeout k elapsed delay hd).2 ≤
        (timeout - elapsed + d0 - 1) / d0 + 1 := by
  intro k elapsed delay hd
  induction k, elapsed, delay, hd using createHNSNetworkLoop.induct envs config timeout with
  | case1 k elapsed delay hd id trace hts =>
    intro hdelay
    have h1 := tryCreateHNSNetwork_postsCount (envs k) config
    rw [hts] at h1
    replace h1 : postsCount trace = 1 := h1
    rw [createHNSNetworkLoop_of_ok envs config timeout k elapsed delay hd id trace hts]
    show postsCount trace ≤ (timeout - elapsed + d0 - 1) / d0 + 1
    rw [h1]
    exact Nat.le_add_left 1 _
  | case2 k elapsed delay hd inner trace hts hlt res rest heq ih =>
    intro hdelay
    have h1 := tryCreateHNSNetwork_postsCount (envs k) config
    rw [hts] at h1
    replace h1 : postsCount trace = 1 := h1
    rw [createHNSNetworkLoop_of_rec_continue envs config timeout k elapsed delay hd
      inner trace hts hlt]
    have h2 : d0 ≤ 2 * delay := by omega
    have ih2 := ih h2
    simp only [postsCount_append, postsCount_cons_sleep, h1]
    have h3 := ceilDiv_retry_step d0 (timeout - elapsed)
      (timeout - (elapsed + (envs k).dur + delay)) hd0 (by omega) (by omega)
    omega
  | case3 k elapsed delay hd inner trace hts hge =>
    intro hdelay
    have h1 := tryCreateHNSNetwork_postsCount (envs k) config
    rw [hts] at h1
    replace h1 : postsCount trace = 1 := h1
    rw [createHNSNetworkLoop_of_rec_stop envs config timeout k elapsed delay hd
      inner trace hts hge]
    show postsCount trace ≤ (timeout - elapsed + d0 - 1) / d0 + 1
    rw [h1]
    exact Nat.le_add_left 1 _
  | case4 k elapsed delay hd msg trace hts =>
    intro hdelay
    have h1 := tryCreateHNSNetwork_postsCount (envs k) config
    rw [hts] at h1
    replace h1 : postsCount trace = 1 := h1
    rw [createHNSNetworkLoop_of_plain envs config timeout k elapsed delay hd msg trace hts]
    show postsCount trace ≤ (timeout - elapsed + d0 - 1) / d0 + 1
    rw [h1]
    exact Nat.le_add_left 1 _

lemma createHNSNetworkLoop_headCall (envs : Nat → TryEnv) (config : String)
    (timeout k elapsed delay : Nat) (hd : 0 < delay) :
    (createHNSNetworkLoop envs config timeout k elapsed delay hd).2.head? =
      some (Call.hnsPost config) := by
  have hh := tryCreateHNSNetwork_headCall (envs k) config
  rcases hatt : tryCreateHNSNetwork (envs k) config with ⟨r, tr⟩
  rw [hatt] at hh
  rcases r with e | id
  case ok =>
    rw [createHNSNetworkLoop_of_ok envs config timeout k elapsed delay hd id tr hatt]
    exact hh
  case error =>
    rcases e with inner | msg
    · by_cases hlt : elapsed + (envs k).dur < timeout
      · rw [createHNSNetworkLoop_of_rec_continue envs config timeout k elapsed delay hd
          inner tr hatt hlt]
        rcases tr with _ | ⟨c, cs⟩
        · simp at hh
        · simp at hh
          simp [hh]
      · rw [createHNSNetworkLoop_of_rec_stop envs config timeout k elapsed delay hd
          inner tr hatt hlt]
        exact hh
    · rw [createHNSNetworkLoop_of_plain envs config timeout k elapsed delay hd msg tr hatt]
      exact hh

lemma lookup_filter_out_key (l : List (String × ManagedNetwork)) (id : String) :
    (l.filter fun p => !(p.1 == id)).lookup id = none := by
  induction l with
  | nil => rfl
  | cons p t ih =>
    by_cases h : p.1 = id
    · simp [List.filter_cons, h, ih]
    · have hb : (p.1 == id) = false := by simp [h]
      have hb2 : (id == p.1) = false := by
        simp
        exact fun hc => h hc.symm
      simp [List.filter_cons, hb, List.lookup, hb2, ih]

/-- C6: a CreateNetwork request whose option map lacks the tenant name or the
network name is rejected with InvalidRequest, the mapping store is unchanged,
and no backend port is called. -/
theorem driverCore_createNetwork_invalid_request (env : CreateNetworkEnv)
    (st : CoreState) (runtimeNetworkID : String) (options : List (String × String))
    (hmiss : options.lookup "tenant" = none ∨ options.lookup "network" = none) :
    CreateNetwork env st runtimeNetworkID options =
      (Except.error DriverErr.invalidRequest, st, []) := by
  rcases hmiss with h | h
  · rcases h2 : options.lookup "network" with _ | v <;> simp [CreateNetwork, h, h2]
  · rcases h1 : options.lookup "tenant" with _ | v <;> simp [CreateNetwork, h1, h]

theorem driverCore_createNetwork_invalid_request_witness :
    CreateNetwork (CreateNetworkEnv.mk none (Except.error "e")) (CoreState.mk [] [])
        "net1" [] =
      (Except.error DriverErr.invalidRequest, CoreState.mk [] [], []) :=
  driverCore_createNetwork_invalid_request (CreateNetworkEnv.mk none (Except.error "e"))
    (CoreState.mk [] []) "net1" [] (Or.inl rfl)

/-- C7: DeleteNetwork is idempotent: for a runtime network id with no
ManagedNetwork mapping it returns success; when a mapping exists and the
local-network backend reports NotFound, that is absorbed as success and the
mapping is dropped. -/
theorem driverCore_deleteNetwork_idempotent (localDelete : LocalDeleteOutcome)
    (st : CoreState) (runtimeNetworkID : String) :
    (st.managedNetworks.lookup runtimeNetworkID = none →
      DeleteNetwork localDelete st runtimeNetworkID = (Except.ok (), st, [])) ∧
    (∀ m, st.managedNetworks.lookup runtimeNetworkID = some m →
      localDelete = LocalDeleteOutcome.notFound →
      (DeleteNetwork localDelete st runtimeNetworkID).1 = Except.ok () ∧
      ((DeleteNetwork localDelete st runtimeNetworkID).2.1).managedNetworks.lookup
        runtimeNetworkID = none) := by
  constructor
  · intro h
    simp [DeleteNetwork, h]
  · intro m hm hnf
    subst hnf
    simp only [DeleteNetwork, hm]
    exact ⟨trivial, lookup_filter_out_key st.managedNetworks runtimeNetworkID⟩

theorem driverCore_deleteNetwork_idempotent_witness :
    (DeleteNetwork LocalDeleteOutcome.notFound
        (CoreState.mk [("r1", ManagedNetwork.mk "l1" "t" "n")] []) "r1").1 =
      Except.ok () ∧
    ((DeleteNetwork LocalDeleteOutcome.notFound
        (CoreState.mk [("r1", ManagedNetwork.mk "l1" "t" "n")] []) "r1").2.1).managedNetworks.lookup
      "r1" = none :=
  (driverCore_deleteNetwork_idempotent LocalDeleteOutcome.notFound
      (CoreState.mk [("r1", ManagedNetwork.mk "l1" "t" "n")] []) "r1").2
    (ManagedNetwork.mk "l1" "t" "n") rfl rfl

/-- C8: Leave is a no-op returning success and calling no backend port, for
every runtime endpoint id and every state of the mapping store (in particular
whether or not the endpoint exists there). -/
theorem driverCore_leave_noop (st : CoreState) (runtimeEndpointID : String) :
    Leave st runtimeEndpointID = (Except.ok (), []) := rfl

/-- C9: when listing networks succeeds and no network carries the requested
name, GetHNSNetworkByName reports absence as a nil network with a nil error;
lookup by ID instead propagates the backend's error for an unknown id. -/
theorem getHNSNetworkByName_absent_nil (nets : List HNSNetwork) (name : String)
    (e hnsID : String) :
    ((∀ n ∈ nets, n.Name ≠ name) →
      (GetHNSNetworkByName (Except.ok nets) name).1 = Except.ok none) ∧
    (GetHNSNetwork (Except.error e) hnsID).1 = Except.error e := by
  constructor
  · intro h
    have hf : nets.find? (fun n => n.Name == name) = none := by
      rw [List.find?_eq_none]
      intro x hx
      simp [h x hx]
    simp [GetHNSNetworkByName, hf]
  · rfl

theorem getHNSNetworkByName_absent_nil_witness :
    (GetHNSNetworkByName (Except.ok [HNSNetwork.mk "id0" "a" "eth0"]) "b").1 =
      Except.ok none :=
  (getHNSNetworkByName_absent_nil [HNSNetwork.mk "id0" "a" "eth0"] "b" "e" "x").1
    (by decide)

lemma DeleteHNSNetwork_mem_delete (env : DeleteEnv) (hnsID : String)
    (n : HNSNetwork) (nets : List HNSNetwork)
    (hget : env.getResp = Except.ok n) (hlist : env.listResp = Except.ok nets) :
    Call.hnsDelete hnsID ∈ (DeleteHNSNetwork env hnsID).2 := by
  rcases env with ⟨g, l, d, w⟩
  simp only at hget hlist
  subst hget
  subst hlist
  rcases d with _ | e3
  · rcases w with _ | e4 <;>
      simp [DeleteHNSNetwork, GetHNSNetwork, ListHNSNetworks] <;>
        split <;> simp
  · simp [DeleteHNSNetwork, GetHNSNetwork, ListHNSNetworks]

/-- C1: for every error returned by the backend's create POST, the attempt
classifies it as recoverable exactly when the lower-cased message contains
both the substrings "hns failed" and "unspecified error"; any other creation
error is classified fatal (a plain error), and the retry loop returns it at
once, its whole trace being the single POST: no sleep and no retry. -/
theorem tryCreateHNSNetwork_error_classification (env : TryEnv) (config msg : String)
    (hpost : env.post = Except.error msg) :
    ((tryCreateHNSNetwork env config).1 = Except.error (GoErr.recoverable msg) ↔
      ("hns failed".data <:+: (strToLower msg).data ∧
        "unspecified error".data <:+: (strToLower msg).data)) ∧
    (¬ ("hns failed".data <:+: (strToLower msg).data ∧
        "unspecified error".data <:+: (strToLower msg).data) →
      (tryCreateHNSNetwork env config).1 = Except.error (GoErr.plain msg)) ∧
    (∀ (envs : Nat → TryEnv) (timeout k elapsed delay : Nat) (hd : 0 < delay),
      envs k = env →
      ¬ ("hns failed".data <:+: (strToLower msg).data ∧
        "unspecified error".data <:+: (strToLower msg).data) →
      createHNSNetworkLoop envs config timeout k elapsed delay hd =
        (Except.error (GoErr.plain msg), [Call.hnsPost config])) := by
  have hcls : isRecoverableHNSErr msg = true ↔
      ("hns failed".data <:+: (strToLower msg).data ∧
        "unspecified error".data <:+: (strToLower msg).data) := by
    simp [isRecoverableHNSErr]
  by_cases hrec : isRecoverableHNSErr msg = true
  · have hc := hcls.mp hrec
    refine ⟨?_, fun hn => absurd hc hn, fun _ _ _ _ _ _ _ hn => absurd hc hn⟩
    simp [tryCreateHNSNetwork, hpost, hrec, hc.1, hc.2]
  · have hc : ¬ ("hns failed".data <:+: (strToLower msg).data ∧
        "unspecified error".data <:+: (strToLower msg).data) :=
      fun h => hrec (hcls.mpr h)
    have htv : tryCreateHNSNetwork env config =
        (Except.error (GoErr.plain msg), [Call.hnsPost config]) := by
      simp [tryCreateHNSNetwork, hpost, hrec]
    refine ⟨?_, fun _ => by rw [htv], ?_⟩
    · rw [htv]
      simp [hc]
    · intro envs timeout k elapsed delay hd henv hn
      apply createHNSNetworkLoop_of_plain
      rw [henv]
      exact htv

theorem tryCreateHNSNetwork_error_classification_witness :
    (tryCreateHNSNetwork recoverablePostAttempt "cfg").1 =
      Except.error (GoErr.recoverable "hns failed: unspecified error") :=
  ((tryCreateHNSNetwork_error_classification recoverablePostAttempt "cfg"
      "hns failed: unspecified error" rfl).1).mpr (by decide)

/-- C3: when the create POST nominally succeeds but the adapter readiness
wait fails, the attempt issues a compensating delete of the just-created
network, passing that network's id, before returning an error. -/
theorem tryCreateHNSNetwork_compensating_delete (env : TryEnv)
    (config id werr : String)
    (hpost : env.post = Except.ok id) (hwait : env.wait = some werr) :
    (∃ e, (tryCreateHNSNetwork env config).1 = Except.error e) ∧
    (tryCreateHNSNetwork env config).2 =
      Call.hnsPost config :: Call.waitIP HNSTransparentInterfaceName ::
        (DeleteHNSNetwork env.del id).2 ∧
    (∀ n nets, env.del.getResp = Except.ok n → env.del.listResp = Except.ok nets →
      Call.hnsDelete id ∈ (tryCreateHNSNetwork env config).2) := by
  rcases hdel : DeleteHNSNetwork env.del id with ⟨r, tr⟩
  rcases r with _ | e2
  · have htv : tryCreateHNSNetwork env config =
        (Except.error (GoErr.recoverable werr),
          Call.hnsPost config :: Call.waitIP HNSTransparentInterfaceName :: tr) := by
      simp [tryCreateHNSNetwork, hpost, hwait, hdel]
    refine ⟨⟨GoErr.recoverable werr, by rw [htv]⟩, by simp [htv, hdel], ?_⟩
    intro n nets hg hl
    have hmem := DeleteHNSNetwork_mem_delete env.del id n nets hg hl
    rw [hdel] at hmem
    rw [htv]
    simp only [List.mem_cons]
    exact Or.inr (Or.inr hmem)
  · have htv : tryCreateHNSNetwork env config =
        (Except.error (GoErr.plain e2),
          Call.hnsPost config :: Call.waitIP HNSTransparentInterfaceName :: tr) := by
      simp [tryCreateHNSNetwork, hpost, hwait, hdel]
    refine ⟨⟨GoErr.plain e2, by rw [htv]⟩, by simp [htv, hdel], ?_⟩
    intro n nets hg hl
    have hmem := DeleteHNSNetwork_mem_delete env.del id n nets hg hl
    rw [hdel] at hmem
    rw [htv]
    simp only [List.mem_cons]
    exact Or.inr (Or.inr hmem)

theorem tryCreateHNSNetwork_compensating_delete_witness :
    Call.hnsDelete "netid1" ∈ (tryCreateHNSNetwork compensationAttempt "cfg").2 :=
  (tryCreateHNSNetwork_compensating_delete compensationAttempt "cfg" "netid1"
      "wait failed" rfl rfl).2.2 (HNSNetwork.mk "netid1" "n" "eth0") [] rfl rfl

/-- C10: with the GET, the listing and the backend DELETE all succeeding,
DeleteHNSNetwork performs the adapter readiness wait exactly when no listed
network with a different id uses the deleted network's adapter; when some
other network still uses it, the function returns success immediately after
the backend delete, its trace ending at the DELETE request. -/
theorem deleteHNSNetwork_wait_iff_adapter_free (env : DeleteEnv) (hnsID : String)
    (toDelete : HNSNetwork) (networks : List HNSNetwork)
    (hget : env.getResp = Except.ok toDelete)
    (hlist : env.listResp = Except.ok networks)
    (hdel : env.delReq = none) :
    (Call.waitIP toDelete.NetworkAdapterName ∈ (DeleteHNSNetwork env hnsID).2 ↔
      ¬ ∃ n ∈ networks, n.Id ≠ toDelete.Id ∧
        n.NetworkAdapterName = toDelete.NetworkAdapterName) ∧
    ((∃ n ∈ networks, n.Id ≠ toDelete.Id ∧
        n.NetworkAdapterName = toDelete.NetworkAdapterName) →
      DeleteHNSNetwork env hnsID =
        (none, [Call.hnsGet hnsID, Call.hnsList, Call.hnsDelete hnsID])) := by
  have hiff : adapterStillInUseIn networks toDelete = true ↔
      ∃ n ∈ networks, n.Id ≠ toDelete.Id ∧
        n.NetworkAdapterName = toDelete.NetworkAdapterName := by
    simp [adapterStillInUseIn]
  by_cases hA : adapterStillInUseIn networks toDelete = true
  · have hex := hiff.mp hA
    have htv : DeleteHNSNetwork env hnsID =
        (none, [Call.hnsGet hnsID, Call.hnsList, Call.hnsDelete hnsID]) := by
      simp [DeleteHNSNetwork, GetHNSNetwork, ListHNSNetworks, hget, hlist, hdel, hA]
    refine ⟨?_, fun _ => htv⟩
    rw [htv]
    simp [hex]
  · have hnex : ¬ ∃ n ∈ networks, n.Id ≠ toDelete.Id ∧
        n.NetworkAdapterName = toDelete.NetworkAdapterName :=
      fun h => hA (hiff.mpr h)
    rcases hw : env.wait with _ | e4
    · have htv : DeleteHNSNetwork env hnsID =
          (none, [Call.hnsGet hnsID, Call.hnsList, Call.hnsDelete hnsID,
            Call.waitIP toDelete.NetworkAdapterName]) := by
        simp [DeleteHNSNetwork, GetHNSNetwork, ListHNSNetworks, hget, hlist, hdel, hA, hw]
      refine ⟨?_, fun h => absurd h hnex⟩
      rw [htv]
      simp [hnex]
    · have htv : DeleteHNSNetwork env hnsID =
          (some e4, [Call.hnsGet hnsID, Call.hnsList, Call.hnsDelete hnsID,
            Call.waitIP toDelete.NetworkAdapterName]) := by
        simp [DeleteHNSNetwork, GetHNSNetwork, ListHNSNetworks, hget, hlist, hdel, hA, hw]
      refine ⟨?_, fun h => absurd h hnex⟩
      rw [htv]
      simp [hnex]

theorem deleteHNSNetwork_wait_iff_adapter_free_witness :
    DeleteHNSNetwork deleteEnvAdapterShared "id1" =
      (none, [Call.hnsGet "id1", Call.hnsList, Call.hnsDelete "id1"]) :=
  (deleteHNSNetwork_wait_iff_adapter_free deleteEnvAdapterShared "id1"
      (HNSNetwork.mk "id1" "n1" "eth0")
      [HNSNetwork.mk "id1" "n1" "eth0", HNSNetwork.mk "id2" "n2" "eth0"]
      rfl rfl rfl).2 ⟨HNSNetwork.mk "id2" "n2" "eth0", by decide⟩

/-- C2: if an attempt fails recoverably while the elapsed time since the
first attempt is still below the timeout budget, the loop sleeps for the
current delay and re-enters the next attempt with the delay doubled; once the
elapsed time reaches the budget it makes no further attempt and returns the
unwrapped underlying backend error; the loop's result is never an error still
typed as recoverable; and when every attempt fails recoverably the recorded
sleeps form the geometric sequence delay, 2·delay, 4·delay, .... -/
theorem createHNSNetwork_retry_backoff (envs : Nat → TryEnv) (config : String)
    (timeout k elapsed delay : Nat) (hd : 0 < delay) (m : String) (tr : List Call)
    (hrec : tryCreateHNSNetwork (envs k) config =
      (Except.error (GoErr.recoverable m), tr)) :
    (elapsed + (envs k).dur < timeout →
      createHNSNetworkLoop envs config timeout k elapsed delay hd =
        ((createHNSNetworkLoop envs config timeout (k + 1)
            (elapsed + (envs k).dur + delay) (2 * delay) (Nat.mul_pos (by decide) hd)).1,
          tr ++ Call.sleep delay ::
            (createHNSNetworkLoop envs config timeout (k + 1)
              (elapsed + (envs k).dur + delay) (2 * delay)
              (Nat.mul_pos (by decide) hd)).2)) ∧
    (¬ elapsed + (envs k).dur < timeout →
      createHNSNetworkLoop envs config timeout k elapsed delay hd =
        (Except.error (GoErr.plain m), tr)) ∧
    (∀ s, (createHNSNetworkLoop envs config timeout k elapsed delay hd).1 ≠
      Except.error (GoErr.recoverable s)) ∧
    ((∀ i, ∃ m2 tr2, tryCreateHNSNetwork (envs i) config =
        (Except.error (GoErr.recoverable m2), tr2)) →
      ∃ n, sleepsOf (createHNSNetworkLoop envs config timeout k elapsed delay hd).2 =
        (List.range n).map fun i => delay * 2 ^ i) :=
  ⟨fun hlt => createHNSNetworkLoop_of_rec_continue envs config timeout k elapsed delay
      hd m tr hrec hlt,
    fun hge => createHNSNetworkLoop_of_rec_stop envs config timeout k elapsed delay
      hd m tr hrec hge,
    fun s => createHNSNetworkLoop_not_recoverable envs config timeout k elapsed delay hd s,
    fun hall => createHNSNetworkLoop_sleeps_geometric envs config timeout hall
      k elapsed delay hd⟩

theorem createHNSNetwork_retry_backoff_witness :
    createHNSNetworkLoop allRecoverableRun "cfg" 9000 0 0 5000 (by decide) =
      ((createHNSNetworkLoop allRecoverableRun "cfg" 9000 (0 + 1)
          (0 + (allRecoverableRun 0).dur + 5000) (2 * 5000) (by decide)).1,
        [Call.hnsPost "cfg"] ++ Call.sleep 5000 ::
          (createHNSNetworkLoop allRecoverableRun "cfg" 9000 (0 + 1)
            (0 + (allRecoverableRun 0).dur + 5000) (2 * 5000) (by decide)).2) :=
  (createHNSNetwork_retry_backoff allRecoverableRun "cfg" 9000 0 0 5000 (by decide)
      "hns failed: unspecified error" [Call.hnsPost "cfg"] rfl).1 (by decide)

/-- C5: when every attempt fails recoverably, the retry loop performs only
finitely many attempts: the number of POSTs is bounded in terms of the
remaining budget and a positive lower bound on the delay, every recorded
sleep is positive and no smaller than the current delay, and the loop exits
with a plain error. -/
theorem createHNSNetwork_retry_terminates (envs : Nat → TryEnv) (config : String)
    (timeout d0 k elapsed delay : Nat) (hd : 0 < delay) (hd0 : 0 < d0)
    (hdelay : d0 ≤ delay)
    (hall : ∀ i, ∃ m tr, tryCreateHNSNetwork (envs i) config =
      (Except.error (GoErr.recoverable m), tr)) :
    (∃ m, (createHNSNetworkLoop envs config timeout k elapsed delay hd).1 =
      Except.error (GoErr.plain m)) ∧
    postsCount (createHNSNetworkLoop envs config timeout k elapsed delay hd).2 ≤
      (timeout - elapsed + d0 - 1) / d0 + 1 ∧
    (∀ s ∈ sleepsOf (createHNSNetworkLoop envs config timeout k elapsed delay hd).2,
      delay ≤ s ∧ 0 < s) :=
  ⟨createHNSNetworkLoop_all_recoverable_error envs config timeout hall k elapsed delay hd,
    createHNSNetworkLoop_postsCount_le envs config timeout d0 hd0 k elapsed delay hd hdelay,
    fun s hs =>
      ⟨createHNSNetworkLoop_sleeps_ge envs config timeout k elapsed delay hd s hs,
        lt_of_lt_of_le hd
          (createHNSNetworkLoop_sleeps_ge envs config timeout k elapsed delay hd s hs)⟩⟩

theorem createHNSNetwork_retry_terminates_witness :
    postsCount (createHNSNetworkLoop allRecoverableRun "cfg" 9000 0 0 5000
        (by decide)).2 ≤ (9000 - 0 + 5000 - 1) / 5000 + 1 :=
  (createHNSNetwork_retry_terminates allRecoverableRun "cfg" 9000 5000 0 0 5000
      (by decide) (by decide) (by decide)
      (fun i => ⟨"hns failed: unspecified error", [Call.hnsPost "cfg"], rfl⟩)).2.1

/-- C4 (counterexample): a run whose first attempt fails with the transient
POST signature and whose second attempt succeeds; the resilient loop re-enters
the second attempt right after the sleep, so the calls before the second POST
contain no adapter readiness wait, contradicting the claim that such a wait
gates every re-entry after a recoverable failure. -/
theorem createHNSNetwork_wait_between_attempts_cex :
    (CreateHNSNetwork recoverThenSucceedRun "cfg").2 =
      [Call.hnsPost "cfg", Call.sleep (5 * 1000), Call.hnsPost "cfg",
        Call.waitIP HNSTransparentInterfaceName] ∧
    ((CreateHNSNetwork recoverThenSucceedRun "cfg").2.take 3).all
      (fun c => !(isWaitCall c)) = true := by
  have h1 : tryCreateHNSNetwork (recoverThenSucceedRun 0) "cfg" =
      (Except.error (GoErr.recoverable "hns failed: unspecified error"),
        [Call.hnsPost "cfg"]) := rfl
  have h2 : tryCreateHNSNetwork (recoverThenSucceedRun 1) "cfg" =
      (Except.ok "netid1",
        [Call.hnsPost "cfg", Call.waitIP HNSTransparentInterfaceName]) := rfl
  have hfull : CreateHNSNetwork recoverThenSucceedRun "cfg" =
      (Except.ok "netid1",
        [Call.hnsPost "cfg", Call.sleep (5 * 1000), Call.hnsPost "cfg",
          Call.waitIP HNSTransparentInterfaceName]) := by
    unfold CreateHNSNetwork
    rw [createHNSNetworkLoop_of_rec_continue recoverThenSucceedRun "cfg"
      CreateHNSNetworkTimeout 0 0 CreateHNSNetworkInitialRetryDelay (by decide)
      "hns failed: unspecified error" [Call.hnsPost "cfg"] h1 (by decide)]
    rw [createHNSNetworkLoop_of_ok recoverThenSucceedRun "cfg" CreateHNSNetworkTimeout
      (0 + 1) (0 + (recoverThenSucceedRun 0).dur + CreateHNSNetworkInitialRetryDelay)
      (2 * CreateHNSNetworkInitialRetryDelay) (Nat.mul_pos (by decide) (by decide))
      "netid1" [Call.hnsPost "cfg", Call.waitIP HNSTransparentInterfaceName] h2]
    rfl
  exact ⟨by rw [hfull], by rw [hfull]; rfl⟩

/-- C4 (amended): the adapter readiness wait is performed inside each attempt
right after the backend create call succeeds; after a recoverable failure the
loop re-enters the next attempt after only the retry-delay sleep — the next
recorded call after that sleep is already the next attempt's POST. -/
theorem createHNSNetwork_readiness_wait_location (envs : Nat → TryEnv)
    (config : String) (timeout k elapsed delay : Nat) (hd : 0 < delay) :
    (∀ m tr, tryCreateHNSNetwork (envs k) config =
        (Except.error (GoErr.recoverable m), tr) →
      elapsed + (envs k).dur < timeout →
      createHNSNetworkLoop envs config timeout k elapsed delay hd =
        ((createHNSNetworkLoop envs config timeout (k + 1)
            (elapsed + (envs k).dur + delay) (2 * delay) (Nat.mul_pos (by decide) hd)).1,
          tr ++ Call.sleep delay ::
            (createHNSNetworkLoop envs config timeout (k + 1)
              (elapsed + (envs k).dur + delay) (2 * delay)
              (Nat.mul_pos (by decide) hd)).2) ∧
      (createHNSNetworkLoop envs config timeout (k + 1)
          (elapsed + (envs k).dur + delay) (2 * delay)
          (Nat.mul_pos (by decide) hd)).2.head? = some (Call.hnsPost config)) ∧
    (∀ id, (envs k).post = Except.ok id →
      Call.waitIP HNSTransparentInterfaceName ∈ (tryCreateHNSNetwork (envs k) config).2) := by
  constructor
  · intro m tr hrec hlt
    exact ⟨createHNSNetworkLoop_of_rec_continue envs config timeout k elapsed delay hd
        m tr hrec hlt,
      createHNSNetworkLoop_headCall envs config timeout (k + 1)
        (elapsed + (envs k).dur + delay) (2 * delay) (Nat.mul_pos (by decide) hd)⟩
  · intro id hpost
    rcases hw : (envs k).wait with _ | werr
    · simp [tryCreateHNSNetwork, hpost, hw]
    · rcases hdelv : DeleteHNSNetwork (envs k).del id with ⟨r, tr⟩
      rcases r with _ | e2 <;> simp [tryCreateHNSNetwork, hpost, hw, hdelv]

theorem createHNSNetwork_readiness_wait_location_witness :
    Call.waitIP HNSTransparentInterfaceName ∈
      (tryCreateHNSNetwork (recoverThenSucceedRun 1) "cfg").2 :=
  (createHNSNetwork_readiness_wait_location recoverThenSucceedRun "cfg" 90000 1 0 5000
      (by decide)).2 "netid1" rfl
